import Mathlib

/-!
Verification of the atlasBackend image-analysis service.

This file gives a shallow embedding, in Lean 4, of the pure core of the
repository: the Python helper functions of `src/helpers/image_utils.py`,
`src/helpers/speciesnet_utils.py`, `src/helpers/gemini_utils.py` and the
grouping / serialization helpers of `src/main.py`, together with theorems
settling the behavioural claims about them.

Modelling conventions:
- Python strings are Lean `String`; `str.strip` and `str.split` are modelled
  by `pyStrip` / `pySplit` below, which operate structurally on the
  underlying character list (so that concrete instances evaluate by `decide`).
- Python `None` is `Option.none`; a JSON value is the inductive `JValue`;
  a Python dict is an association list with first-match lookup.
- Raising an exception is modelled with `Except` / explicit result sums.
- External collaborators (the Gemini SDK call, the `imghdr.what` sniffer,
  the `json.loads` parser, the filesystem) are universally quantified
  parameters or explicit state, never stubbed to a fixed value.
-/

set_option maxHeartbeats 1000000

namespace AtlasBackend

/-- Model of Python `str.strip()`: drop leading and trailing whitespace.
Structural on the character list so the kernel can evaluate it. -/
def pyStrip (s : String) : String :=
  ⟨((s.data.dropWhile Char.isWhitespace).reverse.dropWhile Char.isWhitespace).reverse⟩

/-- Model of Python `str.split(sep)` on the character list: split at every
occurrence of `sep`, keeping empty segments (so `"".split(";") = [""]`). -/
def pySplitChars (sep : Char) : List Char → List (List Char)
  | [] => [[]]
  | c :: rest =>
    let r := pySplitChars sep rest
    if c = sep then [] :: r
    else (c :: r.headD []) :: r.tail

/-- Model of Python `str.split(sep)` returning strings. -/
def pySplit (sep : Char) (s : String) : List String :=
  (pySplitChars sep s.data).map (fun l => ⟨l⟩)

/-- A JSON-like Python value: strings, numbers, booleans, None, lists and
dicts (dicts as association lists, first binding wins on lookup). -/
inductive JValue where
  | str (s : String)
  | num (q : Int)
  | bool (b : Bool)
  | null
  | arr (elems : List JValue)
  | obj (fields : List (String × JValue))

/-- Python `dict.get(key)` on an association list: first binding wins,
absent key gives `none`. -/
def jget : List (String × JValue) → String → Option JValue
  | [], _ => none
  | (k, v) :: rest, key => if k = key then some v else jget rest key

/-! ## src/helpers/speciesnet_utils.py -/

/-- Embedding of `extract_display_name` (src/helpers/speciesnet_utils.py,
lines 14-18).  `if not label: return None` catches both `None` and the empty
string; then the label is split on `;`, segments are stripped, empty ones
dropped, and the last survivor returned; if none survives the original label
is returned. -/
def extract_display_name (label : Option String) : Option String :=
  match label with
  | none => none
  | some l =>
    if l = "" then none
    else
      let parts := ((pySplit ';' l).map pyStrip).filter (fun seg => seg ≠ "")
      match parts.getLast? with
      | some p => some p
      | none => some l

/-- The `classifications` sub-dict of a SpeciesNet prediction: parallel
`classes` / `scores` sequences. -/
structure Classifications where
  classes : List String
  scores : List ℚ
deriving DecidableEq

/-- A per-detection record.  `label_display` is `none` while the key is
absent and `some v` once `summarize_prediction` has written `v` into the
record; other keys of the Python dict are untouched by the code and are not
modelled. -/
structure Detection where
  label : Option String
  label_display : Option (Option String)
deriving DecidableEq

/-- One SpeciesNet prediction record, with exactly the keys that
`summarize_prediction` reads (absent `detections` is merged with `[]`,
matching `first.get("detections", [])`). -/
structure Prediction where
  classifications : Option Classifications
  detections : List Detection
  prediction : Option String
  prediction_score : Option ℚ
  prediction_source : Option String
  model_version : Option String
  failures : Option (List String)
deriving DecidableEq

/-- The SpeciesNet predictions structure (`predictions_dict`); an absent
`predictions` key is merged with the default `[]` of
`predictions_dict.get("predictions", [])`. -/
structure PredictionsDict where
  predictions : List Prediction
deriving DecidableEq

/-- One entry of the `top_classes` list built by `summarize_prediction`. -/
structure TopClass where
  label_raw : String
  display_name : Option String
  score : ℚ
deriving DecidableEq

/-- The summary dict returned by `summarize_prediction`. -/
structure SpeciesSummary where
  prediction : Option String
  prediction_display_name : Option String
  prediction_score : Option ℚ
  prediction_source : Option String
  model_version : Option String
  top_classes : List TopClass
  detections : List Detection
  best_class : Option TopClass
  failures : Option (List String)
deriving DecidableEq

/-- The in-place write `detection["label_display"] = extract_display_name(detection.get("label"))`
performed on every detection record of the first prediction. -/
def writeLabelDisplay (det : Detection) : Detection :=
  { det with label_display := some (extract_display_name det.label) }

/-- Embedding of `summarize_prediction` (src/helpers/speciesnet_utils.py,
lines 21-55).  The Python function mutates the detection records of the
first prediction in place; mutation is modelled by state passing: the
result carries both the returned summary and the post-call state of the
input `predictions_dict`.  A `none` argument models Python `None`, on which
`predictions_dict.get` raises `AttributeError`. -/
def summarize_prediction (predictions_dict : Option PredictionsDict) :
    Except String (SpeciesSummary × PredictionsDict) :=
  match predictions_dict with
  | none => .error "AttributeError"
  | some d =>
    match d.predictions with
    | [] => .error "SpeciesNet returned no predictions."
    | first :: rest =>
      let cls := first.classifications.getD ⟨[], []⟩
      let top_classes := (cls.classes.zip cls.scores).map
        (fun p => TopClass.mk p.1 (extract_display_name (some p.1)) p.2)
      let detections := first.detections.map writeLabelDisplay
      .ok
        (⟨first.prediction,
          extract_display_name first.prediction,
          first.prediction_score,
          first.prediction_source,
          first.model_version,
          top_classes,
          detections,
          top_classes.head?,
          first.failures⟩,
         ⟨{ first with detections := detections } :: rest⟩)

/-! ## src/helpers/gemini_utils.py -/

/-- The module constant `GEMINI_UNAVAILABLE_MESSAGE`. -/
def GEMINI_UNAVAILABLE_MESSAGE : String := "Gemini model overloaded. Please try again later."

/-- Outcome of one `client.models.generate_content` call inside
`call_gemini`: a successful response, a `genai_errors.ServerError` carrying
a status code, or any other exception. -/
inductive GenOutcome (α : Type) where
  | success (resp : α)
  | serverError (status : Int)
  | otherError (err : String)

/-- How `call_gemini` terminates: a returned response, a raised
`RuntimeError` with its message, a re-raised `ServerError`, or a re-raised
exception of another class. -/
inductive CallResult (α : Type) where
  | ok (resp : α)
  | runtimeError (msg : String)
  | serverErrorRaised (status : Int)
  | otherRaised (err : String)
deriving DecidableEq

/-- The retry loop of `call_gemini` (src/helpers/gemini_utils.py, lines
60-94), one constructor step per iteration of
`for attempt in range(1, max_attempts + 1)`.  `fuel` is the number of loop
iterations still available (`max_attempts - attempt + 1`); `mock attempt`
is the outcome of the generate call on that attempt.  The second component
of the result is the ordered list of `time.sleep` durations performed. -/
def callGeminiLoop {α : Type} (mock : Nat → GenOutcome α) (base : ℚ)
    (maxAttempts : Nat) : Nat → Nat → CallResult α × List ℚ
  | 0, _ => (.runtimeError GEMINI_UNAVAILABLE_MESSAGE, [])
  | fuel + 1, attempt =>
    match mock attempt with
    | .success r => (.ok r, [])
    | .otherError e => (.otherRaised e, [])
    | .serverError status =>
      if status ≠ 503 then (.serverErrorRaised status, [])
      else if attempt ≥ maxAttempts then (.runtimeError GEMINI_UNAVAILABLE_MESSAGE, [])
      else
        let delay := base * (attempt : ℚ)
        let next := callGeminiLoop mock base maxAttempts fuel (attempt + 1)
        (next.1, delay :: next.2)

/-- Embedding of `call_gemini` (src/helpers/gemini_utils.py, lines 37-94):
run the retry loop starting at attempt 1 with full fuel.  The source
defaults are `max_attempts = 3` and `base_backoff_seconds = 1.5`. -/
def call_gemini {α : Type} (mock : Nat → GenOutcome α) (maxAttempts : Nat)
    (base : ℚ) : CallResult α × List ℚ :=
  callGeminiLoop mock base maxAttempts maxAttempts 1

/-- Embedding of `is_gemini_unavailable_error` (src/helpers/gemini_utils.py,
lines 97-98): the raised object is a `RuntimeError` whose string equals
`GEMINI_UNAVAILABLE_MESSAGE`. -/
def is_gemini_unavailable_error {α : Type} : CallResult α → Bool
  | .runtimeError msg => msg = GEMINI_UNAVAILABLE_MESSAGE
  | _ => false

/-! ## src/helpers/image_utils.py -/

/-- The config constant `ALLOWED_TYPES` (src/helpers/config.py, line 10). -/
def ALLOWED_TYPES : List String := ["image/jpeg", "image/png", "image/webp"]

/-- The config constant `MAX_FILE_SIZE` (src/helpers/config.py, line 11). -/
def MAX_FILE_SIZE : Nat := 5 * 1024 * 1024

/-- An `UploadFile` as the validator sees it: the declared content type
(`none` when the part has no content type), the raw bytes, and the original
filename. -/
structure UploadFileModel where
  content_type : Option String
  content : List Nat
  filename : Option String

/-- An `HTTPException`: status code and detail message. -/
structure HTTPError where
  status_code : Nat
  detail : String
deriving DecidableEq

/-- Embedding of `is_valid_image_signature` (src/helpers/image_utils.py,
lines 13-15).  The `imghdr.what` sniffer is an external collaborator and is
passed in as a function from the bytes to the detected format name
(`none` when no test matches); the helper itself only checks membership of
the sniffed name in `["jpeg", "png", "webp"]`. -/
def is_valid_image_signature (what : List Nat → Option String)
    (file_bytes : List Nat) : Bool :=
  match what file_bytes with
  | some t => t ∈ (["jpeg", "png", "webp"] : List String)
  | none => false

/-- The first check of `read_and_validate_image`:
`file.content_type in ALLOWED_TYPES` (an absent content type is not in the
allow-set). -/
def declaredTypeAllowed : Option String → Bool
  | some t => ALLOWED_TYPES.contains t
  | none => false

/-- Embedding of `read_and_validate_image` (src/helpers/image_utils.py,
lines 18-39): reject a declared content type outside `ALLOWED_TYPES`, then
a byte length above `MAX_FILE_SIZE`, then a failing signature sniff; on
success return the bytes unchanged. -/
def read_and_validate_image (what : List Nat → Option String)
    (file : UploadFileModel) : Except HTTPError (List Nat) :=
  if !(declaredTypeAllowed file.content_type) then
    .error ⟨400, "Invalid file type. Only JPG, PNG, WEBP allowed."⟩
  else if file.content.length > MAX_FILE_SIZE then
    .error ⟨400, "File too large. Maximum size is 5MB."⟩
  else if ¬ is_valid_image_signature what file.content then
    .error ⟨400, "Invalid image file signature."⟩
  else
    .ok file.content

/-! ## Temp-file plumbing (src/helpers/image_utils.py and
src/helpers/speciesnet_utils.py)

The scratch directory is modelled as the list of paths currently existing
in it.  `persist_temp_image` writes a fresh uniquely-named file
(`NamedTemporaryFile` guarantees the name is unused); `Path.unlink` with
`missing_ok=True` deletes the path and is a no-op when it is absent. -/

/-- Result of a Python call that either returns or raises. -/
inductive PyOutcome (α : Type) where
  | ok (val : α)
  | raised (err : HTTPError)
deriving DecidableEq

/-- Model of `Path.unlink(missing_ok=...)` on the scratch directory state:
removes the path when present; when absent it raises `FileNotFoundError`
unless `missing_ok` is set. -/
def pathUnlink (fs : List String) (p : String) (missing_ok : Bool) :
    Except String (List String) :=
  if p ∈ fs then .ok (fs.erase p)
  else if missing_ok then .ok fs
  else .error "FileNotFoundError"

/-- Model of `persist_temp_image` at the filesystem level: the fresh path
`tempPath` (chosen unused by `NamedTemporaryFile`) is created in the
scratch directory.  The bytes written and the suffix sanitization do not
affect the cleanup claim and are not modelled. -/
def persist_temp_image (fs : List String) (tempPath : String) : List String :=
  tempPath :: fs

/-- The JSON body returned by a successful `/analyze/` request. -/
structure SpeciesResponse where
  filename : Option String
  content_size : Nat
  speciesnet : SpeciesSummary
deriving DecidableEq

/-- Embedding of `analyze_speciesnet_upload` (src/helpers/speciesnet_utils.py,
lines 82-102) at the level of control flow and scratch-directory state.
`what` parameterizes the signature sniffer, `file` is the upload, `fs` the
scratch-directory contents, `tempPath` the fresh name picked by
`NamedTemporaryFile` inside `persist_temp_image`, and `infer` the outcome
of `run_speciesnet_inference` on the persisted file (`.error` models the
inference call raising).  Any exception out of inference or
`summarize_prediction` is converted to an HTTP 500; the `finally` block
always runs `temp_image_path.unlink(missing_ok=True)`.  An exception from
the `finally` unlink itself would replace the in-flight result; the
theorems show this branch is unreachable. -/
def analyze_speciesnet_upload (what : List Nat → Option String)
    (file : UploadFileModel) (fs : List String) (tempPath : String)
    (infer : Except String (Option PredictionsDict)) :
    PyOutcome SpeciesResponse × List String :=
  match read_and_validate_image what file with
  | .error e => (.raised e, fs)
  | .ok content =>
    let fs1 := persist_temp_image fs tempPath
    let inner : PyOutcome SpeciesSummary :=
      match infer with
      | .error _ =>
        .raised ⟨500, "SpeciesNet inference failed. Check server logs for details."⟩
      | .ok pd =>
        match summarize_prediction pd with
        | .error _ =>
          .raised ⟨500, "SpeciesNet inference failed. Check server logs for details."⟩
        | .ok (s, _) => .ok s
    match pathUnlink fs1 tempPath true with
    | .error _ => (.raised ⟨500, "FileNotFoundError"⟩, fs1)
    | .ok fs2 =>
      match inner with
      | .raised e => (.raised e, fs2)
      | .ok s => (.ok ⟨file.filename, content.length, s⟩, fs2)

/-! ## src/main.py -/

/-- The ordered candidate field list `GROUP_LABEL_FIELDS` (src/main.py,
lines 62-71). -/
def GROUP_LABEL_FIELDS : List String :=
  ["category_label", "group_label", "label", "category", "cluster", "species", "name", "title"]

/-- The scan inside `_extract_label_from_mapping` (src/main.py, lines
74-79): for each candidate field in order, if the value is a string whose
strip is non-empty, return the stripped value; otherwise keep scanning. -/
def extract_label_scan (fields : List String)
    (candidate : List (String × JValue)) : Option String :=
  match fields with
  | [] => none
  | f :: rest =>
    match jget candidate f with
    | some (.str v) =>
      if pyStrip v ≠ "" then some (pyStrip v) else extract_label_scan rest candidate
    | _ => extract_label_scan rest candidate

/-- Embedding of `_extract_label_from_mapping` (src/main.py, lines 74-79). -/
def extract_label_from_mapping (candidate : List (String × JValue)) : Option String :=
  extract_label_scan GROUP_LABEL_FIELDS candidate

/-- The `nested_candidates` list built by `_derive_group_label` (src/main.py,
lines 105-112): the elements of a top-level `results` list (when it is a
list), followed by a top-level `details` dict (when it is a dict). -/
def nestedCandidates (response_dict : List (String × JValue)) : List JValue :=
  (match jget response_dict "results" with
   | some (.arr xs) => xs
   | _ => []) ++
  (match jget response_dict "details" with
   | some (.obj f) => [JValue.obj f]
   | _ => [])

/-- The loop over `nested_candidates` (src/main.py, lines 114-118): skip
non-dict candidates, return the first label extracted from a dict one.
`_extract_label_from_mapping` never returns an empty string, so the Python
truthiness test `if nested_label:` coincides with `isSome`. -/
def scanNested : List JValue → Option String
  | [] => none
  | c :: rest =>
    match c with
    | .obj f =>
      match extract_label_from_mapping f with
      | some l => some l
      | none => scanNested rest
    | _ => scanNested rest

/-- Embedding of `_derive_group_label` (src/main.py, lines 100-120). -/
def derive_group_label (response_dict : List (String × JValue))
    (fallback : String) : String :=
  match extract_label_from_mapping response_dict with
  | some l => l
  | none =>
    match scanNested (nestedCandidates response_dict) with
    | some l => l
    | none => fallback

/-- The decoded response and request metadata for one image of a
`/gemini/analyze` request. -/
structure GeminiImage where
  respDict : List (String × JValue)
  filename : Option String
  content_size : Nat

/-- One member record appended to `group_entry["items"]` (src/main.py,
lines 230-236). -/
structure ItemRecord where
  index : Nat
  filename : Option String
  content_size : Nat
deriving DecidableEq

/-- One value of the `grouped_results` dict: the representative `summary`
and the ordered member `items`. -/
structure GroupEntry where
  summary : Option (List (String × JValue))
  items : List ItemRecord

/-- One iteration of the grouping loop body on the `grouped_results` dict
(src/main.py, lines 219-236): `setdefault(group_key, {summary: None,
items: []})` keeps insertion order (existing key found in place, new key
appended at the end), then the summary is filled if still `None` and the
item is appended. -/
def addToGroup : List (String × GroupEntry) → String →
    List (String × JValue) → ItemRecord → List (String × GroupEntry)
  | [], key, resp, item => [(key, ⟨some resp, [item]⟩)]
  | (k, e) :: rest, key, resp, item =>
    if k = key then
      let s := match e.summary with
        | none => some resp
        | some s => some s
      (k, ⟨s, e.items ++ [item]⟩) :: rest
    else
      (k, e) :: addToGroup rest key resp item

/-- The `for index, upload in enumerate(payload.files)` grouping loop of
`analyze_with_gemini` (src/main.py, lines 186-236), restricted to its pure
part: each image arrives already validated and decoded.  The group key is
`_derive_group_label(response_dict, f"group_{index + 1}")`. -/
def groupLoop : List (String × GroupEntry) → Nat → List GeminiImage →
    List (String × GroupEntry)
  | acc, _, [] => acc
  | acc, index, img :: rest =>
    let key := derive_group_label img.respDict ("group_" ++ toString (index + 1))
    groupLoop (addToGroup acc key img.respDict ⟨index, img.filename, img.content_size⟩)
      (index + 1) rest

/-- One record of the final `groups_payload` list (src/main.py, lines
238-248). -/
structure GroupPayload where
  group : String
  count : Nat
  summary : Option (List (String × JValue))
  items : List ItemRecord

/-- The grouped results computed by `analyze_with_gemini` (src/main.py,
lines 184-248): run the grouping loop over the decoded responses in input
order, then emit one payload record per group in dict insertion order. -/
def gemini_grouping (imgs : List GeminiImage) : List GroupPayload :=
  (groupLoop [] 0 imgs).map (fun p => ⟨p.1, p.2.items.length, p.2.summary, p.2.items⟩)

/-- A Gemini SDK response as `_serialize_gemini_response` probes it:
`text` is the value of `getattr(response, "text", None)` (with Python
`None`, from an absent or `None` attribute, modelled as `none`), and
`model_dump` is `some d` when the response exposes a `model_dump` method
whose dump (with `exclude_none=True`) is `d`. -/
structure PyResponse where
  text : Option JValue
  model_dump : Option JValue

/-- Embedding of `_serialize_gemini_response` (src/main.py, lines 82-97).
`jsonLoads` parameterizes the `json.loads` parser (`none` models a parse
exception). -/
def serialize_gemini_response (jsonLoads : String → Option JValue)
    (response : PyResponse) : JValue :=
  match response.text with
  | some (.str s) =>
    match jsonLoads s with
    | some v => v
    | none => .obj [("text", .str s)]
  | t =>
    match response.model_dump with
    | some d => d
    | none => .obj [("text", t.getD .null)]

/-! ## src/schemas/request_schema.py and the `/gemini/analyze` handler -/

/-- The model fields declared by `GeminiAnalyzeRequest`
(src/schemas/request_schema.py, lines 6-21): `prompt`, `schema_json` and a
single optional `file`. -/
def GeminiAnalyzeRequest_fields : List String := ["prompt", "schema_json", "file"]

/-- The attributes of the parsed form payload that the handler
`analyze_with_gemini` reads (src/main.py, lines 171-254: `payload.files`
four times, `payload.prompt`, `payload.schema_json`). -/
def analyze_with_gemini_payload_attrs : List String := ["files", "prompt", "schema_json"]

/-- The keys of the success JSON built by `analyze_with_gemini`
(src/main.py, lines 250-256). -/
def analyze_with_gemini_response_keys : List String :=
  ["prompt", "schema", "gemini_model", "total_images", "groups"]

/-! ## Theorems -/

/-- C7: `extract_display_name` splits its label on `;` and returns the last
segment whose stripped form is non-empty; when no segment survives the
original label is returned verbatim; `extract_display_name("a; b ;Canis lupus")
= "Canis lupus"`, `extract_display_name("") = None` and
`extract_display_name("single") = "single"`. -/
theorem extract_display_name_spec :
    extract_display_name (some "a; b ;Canis lupus") = some "Canis lupus" ∧
    extract_display_name (some "") = none ∧
    extract_display_name none = none ∧
    extract_display_name (some "single") = some "single" ∧
    (∀ l : String, l ≠ "" →
      ((pySplit ';' l).map pyStrip).filter (fun seg => seg ≠ "") = [] →
      extract_display_name (some l) = some l) ∧
    (∀ (l p : String), l ≠ "" →
      (((pySplit ';' l).map pyStrip).filter (fun seg => seg ≠ "")).getLast? = some p →
      extract_display_name (some l) = some p) := by
  refine ⟨by decide, by decide, rfl, by decide, ?_, ?_⟩
  · intro l hl hparts
    simp only [extract_display_name, if_neg hl]
    rw [hparts]
    rfl
  · intro l p hl hlast
    simp only [extract_display_name, if_neg hl]
    rw [hlast]

/-- Witness for `extract_display_name_spec`: a label whose segments all
strip to empty is returned verbatim. -/
theorem extract_display_name_spec_witness :
    extract_display_name (some " ; ") = some " ; " :=
  extract_display_name_spec.2.2.2.2.1 " ; " (by decide) (by decide)

/-- C6: `summarize_prediction` raises on an empty predictions list, and a
summary is only ever produced when at least one prediction record exists. -/
theorem summarize_prediction_empty_predictions_fails :
    (∀ d : PredictionsDict, d.predictions = [] →
      summarize_prediction (some d) = .error "SpeciesNet returned no predictions.") ∧
    (∀ (pd : Option PredictionsDict) (res : SpeciesSummary × PredictionsDict),
      summarize_prediction pd = .ok res →
      ∃ (d : PredictionsDict) (p : Prediction) (ps : List Prediction),
        pd = some d ∧ d.predictions = p :: ps) := by
  constructor
  · intro d h
    simp [summarize_prediction, h]
  · intro pd res h
    match pd with
    | none => simp [summarize_prediction] at h
    | some d =>
      match hd : d.predictions with
      | [] => rw [summarize_prediction, hd] at h; cases h
      | p :: ps => exact ⟨d, p, ps, rfl, hd⟩

/-- Witness for `summarize_prediction_empty_predictions_fails`: the empty
predictions structure makes summarization fail. -/
theorem summarize_prediction_empty_predictions_fails_witness :
    summarize_prediction (some ⟨[]⟩) = .error "SpeciesNet returned no predictions." :=
  summarize_prediction_empty_predictions_fails.1 ⟨[]⟩ rfl

/-- C5: on every exit path of `analyze_speciesnet_upload` the scratch
directory is restored (the temp file created for the image is removed
before the call returns, and no path is created when validation raises
first), so the fresh temp path never survives the call; and releasing an
already-missing handle with `missing_ok` is not an error. -/
theorem analyze_speciesnet_upload_temp_removed :
    (∀ (what : List Nat → Option String) (file : UploadFileModel)
       (fs : List String) (tempPath : String)
       (infer : Except String (Option PredictionsDict)),
      (analyze_speciesnet_upload what file fs tempPath infer).2 = fs) ∧
    (∀ (what : List Nat → Option String) (file : UploadFileModel)
       (fs : List String) (tempPath : String)
       (infer : Except String (Option PredictionsDict)),
      tempPath ∉ fs →
      tempPath ∉ (analyze_speciesnet_upload what file fs tempPath infer).2) ∧
    (∀ (fs : List String) (p : String), p ∉ fs → pathUnlink fs p true = .ok fs) := by
  have key : ∀ (what : List Nat → Option String) (file : UploadFileModel)
      (fs : List String) (tempPath : String)
      (infer : Except String (Option PredictionsDict)),
      (analyze_speciesnet_upload what file fs tempPath infer).2 = fs := by
    intro what file fs tempPath infer
    unfold analyze_speciesnet_upload
    cases read_and_validate_image what file with
    | error e => rfl
    | ok content =>
      have hunlink : pathUnlink (persist_temp_image fs tempPath) tempPath true = .ok fs := by
        simp [persist_temp_image, pathUnlink]
      simp only [hunlink]
      cases infer with
      | error e => rfl
      | ok pd =>
        cases hsp : summarize_prediction pd with
        | error e => simp [hsp]
        | ok sres => simp [hsp]
  refine ⟨key, ?_, ?_⟩
  · intro what file fs tempPath infer hmem
    rw [key]
    exact hmem
  · intro fs p hp
    simp [pathUnlink, hp]

/-- Witness for `analyze_speciesnet_upload_temp_removed`: concrete call on
an empty scratch directory leaves the temp path absent. -/
theorem analyze_speciesnet_upload_temp_removed_witness :
    "t.jpg" ∉ (analyze_speciesnet_upload (fun _ => some "jpeg")
      ⟨some "image/jpeg", [1], some "x.jpg"⟩ [] "t.jpg"
      (.error "inference failed")).2 :=
  analyze_speciesnet_upload_temp_removed.2.1 (fun _ => some "jpeg")
    ⟨some "image/jpeg", [1], some "x.jpg"⟩ [] "t.jpg" (.error "inference failed")
    (by simp)

/-- C8: any byte blob whose sniffed magic-number signature is not JPEG, PNG
or WEBP is rejected by `read_and_validate_image` with a 400 client error,
whatever the declared content type (the file, hence its declared type, is
universally quantified; the signature check itself reads only the bytes). -/
theorem read_and_validate_image_rejects_bad_signature :
    ∀ (what : List Nat → Option String) (file : UploadFileModel),
      what file.content ∉ ([some "jpeg", some "png", some "webp"] : List (Option String)) →
      ∃ detail : String, read_and_validate_image what file = .error ⟨400, detail⟩ := by
  intro what file h
  have hsig : is_valid_image_signature what file.content = false := by
    unfold is_valid_image_signature
    cases hw : what file.content with
    | none => rfl
    | some t =>
      rw [hw] at h
      simp only [List.mem_cons, List.not_mem_nil, or_false, not_or] at h
      obtain ⟨h1, h2, h3⟩ := h
      simp only [List.mem_cons, List.not_mem_nil, or_false, decide_eq_false_iff_not, not_or]
      exact ⟨fun ht => h1 (by rw [ht]), fun ht => h2 (by rw [ht]), fun ht => h3 (by rw [ht])⟩
  unfold read_and_validate_image
  cases hct : declaredTypeAllowed file.content_type with
  | false => exact ⟨"Invalid file type. Only JPG, PNG, WEBP allowed.", by simp⟩
  | true =>
    by_cases hsize : file.content.length > MAX_FILE_SIZE
    · exact ⟨"File too large. Maximum size is 5MB.", by simp [hsize]⟩
    · exact ⟨"Invalid image file signature.", by simp [hsize, hsig]⟩

/-- Witness for `read_and_validate_image_rejects_bad_signature`: a blob
sniffed as GIF is rejected even when declared as `image/png`. -/
theorem read_and_validate_image_rejects_bad_signature_witness :
    ∃ detail : String,
      read_and_validate_image (fun _ => some "gif") ⟨some "image/png", [0], none⟩ =
        .error ⟨400, detail⟩ :=
  read_and_validate_image_rejects_bad_signature (fun _ => some "gif")
    ⟨some "image/png", [0], none⟩ (by decide)

/-- C3 (code bug): the `/gemini/analyze` handler reads the `files`
attribute of its parsed form payload, but `GeminiAnalyzeRequest` declares
only the fields `prompt`, `schema_json` and a single optional `file`, so
the attribute access cannot succeed on any request. -/
theorem analyze_with_gemini_files_attr_missing :
    "files" ∈ analyze_with_gemini_payload_attrs ∧
    "files" ∉ GeminiAnalyzeRequest_fields ∧
    "file" ∈ GeminiAnalyzeRequest_fields ∧
    analyze_with_gemini_response_keys =
      ["prompt", "schema", "gemini_model", "total_images", "groups"] := by
  refine ⟨by decide, by decide, by decide, rfl⟩

/-- Helper: a map that returns the list unchanged fixes every element. -/
theorem list_map_eq_self {α : Type} (f : α → α) :
    ∀ l : List α, l.map f = l → ∀ x ∈ l, f x = x := by
  intro l
  induction l with
  | nil => intro _ x hx; cases hx
  | cons a as ih =>
    intro h x hx
    rw [List.map_cons, List.cons.injEq] at h
    rw [List.mem_cons] at hx
    rcases hx with hx | hx
    · rw [hx]; exact h.1
    · exact ih h.2 x hx

/-- C10 counterexample: a predictions structure whose first prediction has
no detection records is summarized successfully and handed back exactly
unchanged, so summarization does not always leave the input changed. -/
theorem summarize_prediction_unchanged_counterexample :
    summarize_prediction (some ⟨[⟨none, [], none, none, none, none, none⟩]⟩) =
      .ok (⟨none, none, none, none, none, [], [], none, none⟩,
           ⟨[⟨none, [], none, none, none, none, none⟩]⟩) := rfl

/-- C10 (amended): for every predictions structure with at least one
prediction, summarization writes `label_display =
extract_display_name(label)` into each detection record of the first
prediction in place (so the input mapping is left changed whenever some
such record did not already carry exactly that value), and the returned
summary shares its detections list with the records stored back into the
input structure. -/
theorem summarize_prediction_writes_label_display :
    ∀ (d : PredictionsDict) (first : Prediction) (rest : List Prediction),
      d.predictions = first :: rest →
      ∃ s : SpeciesSummary,
        summarize_prediction (some d) =
          .ok (s, ⟨{ first with detections := first.detections.map writeLabelDisplay } :: rest⟩) ∧
        s.detections = first.detections.map writeLabelDisplay ∧
        (∀ det ∈ first.detections.map writeLabelDisplay,
          det.label_display = some (extract_display_name det.label)) ∧
        ((∃ det ∈ first.detections,
            det.label_display ≠ some (extract_display_name det.label)) →
          (⟨{ first with detections := first.detections.map writeLabelDisplay } :: rest⟩ :
            PredictionsDict) ≠ d) := by
  intro d first rest h
  refine ⟨_, by rw [summarize_prediction, h], rfl, ?_, ?_⟩
  · intro det hdet
    rw [List.mem_map] at hdet
    obtain ⟨det0, _, hw⟩ := hdet
    rw [← hw]
    rfl
  · rintro ⟨det, hdet, hne⟩ heq
    have hpred : ({ first with detections := first.detections.map writeLabelDisplay } :: rest :
        List Prediction) = first :: rest := by
      have := congrArg PredictionsDict.predictions heq
      simpa [h] using this
    have hfirst : ({ first with detections := first.detections.map writeLabelDisplay } :
        Prediction) = first := (List.cons.injEq _ _ _ _).mp hpred |>.1
    have hdets : first.detections.map writeLabelDisplay = first.detections := by
      have := congrArg Prediction.detections hfirst
      simpa using this
    have hfix := list_map_eq_self writeLabelDisplay first.detections hdets det hdet
    have : det.label_display = some (extract_display_name det.label) := by
      have := congrArg Detection.label_display hfix
      simpa [writeLabelDisplay] using this.symm
    exact hne this

/-- Witness for `summarize_prediction_writes_label_display`: a one-detection
input lacking the display key is genuinely changed by summarization. -/
theorem summarize_prediction_writes_label_display_witness :
    (⟨[{ (⟨none, [⟨some "a;b", none⟩], none, none, none, none, none⟩ : Prediction) with
        detections := [(⟨some "a;b", none⟩ : Detection)].map writeLabelDisplay }]⟩ :
      PredictionsDict) ≠
    ⟨[⟨none, [⟨some "a;b", none⟩], none, none, none, none, none⟩]⟩ := by
  obtain ⟨s, h1, h2, h3, h4⟩ :=
    summarize_prediction_writes_label_display
      ⟨[⟨none, [⟨some "a;b", none⟩], none, none, none, none, none⟩]⟩
      ⟨none, [⟨some "a;b", none⟩], none, none, none, none, none⟩ [] rfl
  exact h4 ⟨⟨some "a;b", none⟩, by simp, by decide⟩

/-- C1: the `call_gemini` retry policy.  A mock returning 503 twice then a
response succeeds on the third attempt after sleeping 1.5s then 3s
(strictly increasing, no sleep after the last attempt); a mock always
returning 503 exhausts the 3-attempt ceiling, sleeps twice, and raises the
distinguishable unavailable `RuntimeError` (recognized by
`is_gemini_unavailable_error`) and no other error type; a non-503 server
error propagates immediately with no sleep; any other exception class
propagates immediately with no sleep. -/
theorem call_gemini_retry_policy {α : Type} (r : α)
    (mock2 mockAll mockS mockO : Nat → GenOutcome α) (s : Int) (e : String)
    (h1 : mock2 1 = .serverError 503) (h2 : mock2 2 = .serverError 503)
    (h3 : mock2 3 = .success r)
    (hAll : ∀ n, mockAll n = .serverError 503)
    (hS : mockS 1 = .serverError s) (hs : s ≠ 503)
    (hO : mockO 1 = .otherError e) :
    call_gemini mock2 3 (3/2) = (.ok r, [3/2, 3]) ∧
    ((3 : ℚ)/2 < 3) ∧
    call_gemini mockAll 3 (3/2) = (.runtimeError GEMINI_UNAVAILABLE_MESSAGE, [3/2, 3]) ∧
    is_gemini_unavailable_error (call_gemini mockAll 3 (3/2)).1 = true ∧
    call_gemini mockS 3 (3/2) = (.serverErrorRaised s, []) ∧
    call_gemini mockO 3 (3/2) = (.otherRaised e, []) := by
  have e2 : call_gemini mock2 3 (3/2) = (.ok r, [3/2, 3]) := by
    simp only [call_gemini, callGeminiLoop, h1, h2, h3]
    norm_num
  have eAll : call_gemini mockAll 3 (3/2) =
      (.runtimeError GEMINI_UNAVAILABLE_MESSAGE, [3/2, 3]) := by
    simp only [call_gemini, callGeminiLoop, hAll]
    norm_num
  refine ⟨e2, by norm_num, eAll, ?_, ?_, ?_⟩
  · rw [eAll]
    simp [is_gemini_unavailable_error]
  · simp only [call_gemini, callGeminiLoop, hS]
    simp [hs]
  · simp [call_gemini, callGeminiLoop, hO]

/-- Witness for `call_gemini_retry_policy` with concrete mocks. -/
theorem call_gemini_retry_policy_witness :
    call_gemini (fun n => if n = 3 then GenOutcome.success 0 else .serverError 503)
        3 (3/2) = (.ok 0, [3/2, 3]) ∧
    ((3 : ℚ)/2 < 3) ∧
    call_gemini (fun _ : Nat => (GenOutcome.serverError 503 : GenOutcome Nat)) 3 (3/2) =
      (.runtimeError GEMINI_UNAVAILABLE_MESSAGE, [3/2, 3]) ∧
    is_gemini_unavailable_error
      (call_gemini (fun _ : Nat => (GenOutcome.serverError 503 : GenOutcome Nat)) 3 (3/2)).1 = true ∧
    call_gemini (fun _ : Nat => (GenOutcome.serverError 500 : GenOutcome Nat)) 3 (3/2) =
      (.serverErrorRaised 500, []) ∧
    call_gemini (fun _ : Nat => (GenOutcome.otherError "ClientError" : GenOutcome Nat)) 3 (3/2) =
      (.otherRaised "ClientError", []) :=
  call_gemini_retry_policy 0 _ _ _ _ 500 "ClientError"
    (by norm_num) (by norm_num) (by norm_num) (fun _ => rfl) rfl (by norm_num) rfl

/-- C9: `_serialize_gemini_response` follows exactly the three-tier
fallback: a string `text` attribute is parsed as JSON and the parse result
returned; on parse failure the raw text is wrapped as `{"text": raw}`;
without a string `text`, a `model_dump` capability is used when exposed;
otherwise the text attribute value (Python `None` included) is wrapped as
`{"text": value}`. -/
theorem serialize_gemini_response_fallback :
    ∀ (jsonLoads : String → Option JValue) (response : PyResponse),
      (∀ s v, response.text = some (.str s) → jsonLoads s = some v →
        serialize_gemini_response jsonLoads response = v) ∧
      (∀ s, response.text = some (.str s) → jsonLoads s = none →
        serialize_gemini_response jsonLoads response = .obj [("text", .str s)]) ∧
      ((∀ s, response.text ≠ some (.str s)) → ∀ d, response.model_dump = some d →
        serialize_gemini_response jsonLoads response = d) ∧
      ((∀ s, response.text ≠ some (.str s)) → response.model_dump = none →
        serialize_gemini_response jsonLoads response = .obj [("text", response.text.getD .null)]) := by
  intro jsonLoads response
  refine ⟨?_, ?_, ?_, ?_⟩
  · intro s v ht hj
    simp [serialize_gemini_response, ht, hj]
  · intro s ht hj
    simp [serialize_gemini_response, ht, hj]
  · intro hns d hd
    unfold serialize_gemini_response
    rw [hd]
    match hv : response.text with
    | none => rfl
    | some (.str s) => exact absurd hv (hns s)
    | some (.num q) => rfl
    | some (.bool b) => rfl
    | some .null => rfl
    | some (.arr xs) => rfl
    | some (.obj f) => rfl
  · intro hns hd
    unfold serialize_gemini_response
    rw [hd]
    match hv : response.text with
    | none => rfl
    | some (.str s) => exact absurd hv (hns s)
    | some (.num q) => rfl
    | some (.bool b) => rfl
    | some .null => rfl
    | some (.arr xs) => rfl
    | some (.obj f) => rfl

/-- Witness for `serialize_gemini_response_fallback`: unparseable text is
wrapped in a one-field text mapping. -/
theorem serialize_gemini_response_fallback_witness :
    serialize_gemini_response (fun _ => none) ⟨some (.str "not json"), none⟩ =
      .obj [("text", .str "not json")] :=
  (serialize_gemini_response_fallback (fun _ => none)
    ⟨some (.str "not json"), none⟩).2.1 "not json" rfl rfl

/-- Label scan following claim C4 as literally worded: among the candidate
fields, the first value that is a non-empty string wins and is returned
as-is (no stripping).  Stated only for comparison with the source
embedding `extract_label_scan`. -/
def extract_label_scan_verbatim (fields : List String)
    (candidate : List (String × JValue)) : Option String :=
  match fields with
  | [] => none
  | f :: rest =>
    match jget candidate f with
    | some (.str v) =>
      if v ≠ "" then some v else extract_label_scan_verbatim rest candidate
    | _ => extract_label_scan_verbatim rest candidate

/-- Group-label derivation following claim C4 as literally worded. -/
def derive_group_label_verbatim (response_dict : List (String × JValue))
    (fallback : String) : String :=
  match extract_label_scan_verbatim GROUP_LABEL_FIELDS response_dict with
  | some l => l
  | none =>
    match (nestedCandidates response_dict).findSome? (fun c =>
        match c with
        | .obj fs => extract_label_scan_verbatim GROUP_LABEL_FIELDS fs
        | _ => none) with
    | some l => l
    | none => fallback

/-- C4 counterexample: on the mapping `{"category_label": " "}` the source
falls back to the synthetic key although the first candidate field holds a
non-empty string, so the claim as literally worded (first non-empty string
value wins, as-is) disagrees with the code. -/
theorem derive_group_label_claim_counterexample :
    derive_group_label [("category_label", JValue.str " ")] "group_1" = "group_1" ∧
    derive_group_label_verbatim [("category_label", JValue.str " ")] "group_1" = " " ∧
    (" " : String) ≠ "group_1" := by
  refine ⟨rfl, rfl, by decide⟩

/-- The per-mapping scan of the amended claim C4: the first candidate
field, in the fixed order, whose value is a string with non-empty stripped
content; the derived label is the stripped value. -/
def labelFieldScanSpec (cand : List (String × JValue)) : Option String :=
  GROUP_LABEL_FIELDS.findSome? (fun f =>
    match jget cand f with
    | some (.str v) => if pyStrip v = "" then none else some (pyStrip v)
    | _ => none)

/-- Group-label derivation as the amended claim C4 words it: scan the
top-level mapping; failing that, apply the same scan to each dict element
of a top-level `results` list and then to a top-level `details` dict;
failing that, use the synthetic fallback. -/
def derive_group_label_spec (response_dict : List (String × JValue))
    (fallback : String) : String :=
  ((labelFieldScanSpec response_dict).orElse (fun _ =>
    (nestedCandidates response_dict).findSome? (fun c =>
      match c with
      | .obj fs => labelFieldScanSpec fs
      | _ => none))).getD fallback

/-- The loop of `_extract_label_from_mapping` coincides with the
declarative field scan. -/
theorem extract_label_scan_eq_findSome (cand : List (String × JValue)) :
    ∀ fields : List String,
      extract_label_scan fields cand = fields.findSome? (fun f =>
        match jget cand f with
        | some (.str v) => if pyStrip v = "" then none else some (pyStrip v)
        | _ => none) := by
  intro fields
  induction fields with
  | nil => rfl
  | cons f rest ih =>
    cases hj : jget cand f with
    | none => simp [extract_label_scan, List.findSome?, hj, ih]
    | some v =>
      cases v with
      | str s =>
        by_cases hs : pyStrip s = ""
        · simp [extract_label_scan, List.findSome?, hj, hs, ih]
        · simp [extract_label_scan, List.findSome?, hj, hs, ih]
      | num q => simp [extract_label_scan, List.findSome?, hj, ih]
      | bool b => simp [extract_label_scan, List.findSome?, hj, ih]
      | null => simp [extract_label_scan, List.findSome?, hj, ih]
      | arr xs => simp [extract_label_scan, List.findSome?, hj, ih]
      | obj fs => simp [extract_label_scan, List.findSome?, hj, ih]

/-- Corollary: `_extract_label_from_mapping` equals the amended spec scan. -/
theorem extract_label_from_mapping_eq_spec (cand : List (String × JValue)) :
    extract_label_from_mapping cand = labelFieldScanSpec cand :=
  extract_label_scan_eq_findSome cand GROUP_LABEL_FIELDS

/-- The nested-candidate loop coincides with a declarative `findSome?`. -/
theorem scanNested_eq_findSome (l : List JValue) :
    scanNested l = l.findSome? (fun c =>
      match c with
      | .obj fs => labelFieldScanSpec fs
      | _ => none) := by
  induction l with
  | nil => rfl
  | cons c rest ih =>
    cases c with
    | str s => exact ih
    | num q => exact ih
    | bool b => exact ih
    | null => exact ih
    | arr xs => exact ih
    | obj fs =>
      cases h : extract_label_from_mapping fs with
      | none =>
        have h' : labelFieldScanSpec fs = none := by
          rw [← extract_label_from_mapping_eq_spec, h]
        simp [scanNested, List.findSome?, h, h', ih]
      | some lab =>
        have h' : labelFieldScanSpec fs = some lab := by
          rw [← extract_label_from_mapping_eq_spec, h]
        simp [scanNested, List.findSome?, h, h']

/-- C4 (amended): `_derive_group_label` derives the label by taking, at the
top level, the first candidate field whose value is a string with non-empty
stripped content (the label being the stripped value); failing that it
applies the same scan one level deeper, to the dict elements of a top-level
`results` list and then to a top-level `details` dict; failing that it
returns the caller-supplied synthetic fallback (`group_<n>` for the
image at 1-based position n, as wired in by the grouping loop). -/
theorem derive_group_label_amended :
    ∀ (response_dict : List (String × JValue)) (fallback : String),
      derive_group_label response_dict fallback =
        derive_group_label_spec response_dict fallback := by
  intro d fb
  unfold derive_group_label derive_group_label_spec
  rw [← extract_label_from_mapping_eq_spec]
  cases hdir : extract_label_from_mapping d with
  | some l => rfl
  | none =>
    simp only [Option.orElse]
    rw [← scanNested_eq_findSome]
    cases hn : scanNested (nestedCandidates d) with
    | some l => rfl
    | none => rfl

/-- Each image of a request paired with its derived group key and its
member record, in input order (index `n` gets fallback `group_<n+1>`). -/
def keyedImages : Nat → List GeminiImage →
    List (String × ItemRecord × List (String × JValue))
  | _, [] => []
  | index, img :: rest =>
    (derive_group_label img.respDict ("group_" ++ toString (index + 1)),
     ⟨index, img.filename, img.content_size⟩, img.respDict) :: keyedImages (index + 1) rest

/-- Declarative grouping following the spec wording of claim C2: one group
per label in first-seen order (labels already in `seen` are skipped); the
summary of a group is the response of the first image carrying its label;
its member list is every image carrying the label, in input order. -/
def collectGroups : List String →
    List (String × ItemRecord × List (String × JValue)) → List (String × GroupEntry)
  | _, [] => []
  | seen, (k, item, resp) :: rest =>
    if k ∈ seen then collectGroups seen rest
    else
      (k, ⟨some resp, item :: (rest.filter (fun x => x.1 = k)).map (fun x => x.2.1)⟩)
        :: collectGroups (k :: seen) rest

/-- Declarative form of the grouped results of `analyze_with_gemini`. -/
def gemini_grouping_spec (imgs : List GeminiImage) : List GroupPayload :=
  (collectGroups [] (keyedImages 0 imgs)).map
    (fun p => ⟨p.1, p.2.items.length, p.2.summary, p.2.items⟩)

/-- The grouping loop re-expressed over pre-keyed inputs (proof device). -/
def loopK : List (String × GroupEntry) →
    List (String × ItemRecord × List (String × JValue)) → List (String × GroupEntry)
  | acc, [] => acc
  | acc, (k, item, resp) :: rest => loopK (addToGroup acc k resp item) rest

/-- Extend a group entry with the member records of all inputs carrying its
key (proof device for the loop invariant). -/
def addAll (kis : List (String × ItemRecord × List (String × JValue)))
    (k : String) (e : GroupEntry) : GroupEntry :=
  ⟨e.summary, e.items ++ (kis.filter (fun x => x.1 = k)).map (fun x => x.2.1)⟩

/-- The source loop and the pre-keyed loop agree. -/
theorem groupLoop_eq_loopK :
    ∀ (imgs : List GeminiImage) (acc : List (String × GroupEntry)) (index : Nat),
      groupLoop acc index imgs = loopK acc (keyedImages index imgs) := by
  intro imgs
  induction imgs with
  | nil => intro acc index; rfl
  | cons img rest ih =>
    intro acc index
    simp only [groupLoop, keyedImages, loopK]
    exact ih _ _

/-- `setdefault` on a fresh key appends the new entry at the end, already
holding the response as summary and the item as sole member. -/
theorem addToGroup_of_not_mem :
    ∀ (acc : List (String × GroupEntry)) (k : String)
      (resp : List (String × JValue)) (item : ItemRecord),
      k ∉ acc.map Prod.fst →
      addToGroup acc k resp item = acc ++ [(k, ⟨some resp, [item]⟩)] := by
  intro acc k resp item
  induction acc with
  | nil => intro _; rfl
  | cons p rest ih =>
    intro h
    obtain ⟨k₀, e⟩ := p
    rw [List.map_cons, List.mem_cons] at h
    push_neg at h
    simp only [addToGroup, if_neg (fun hh : k₀ = k => h.1 hh.symm), List.cons_append,
      List.cons.injEq, true_and]
    exact ih h.2

/-- Updating entries whose key is absent from a list is the identity. -/
theorem map_upd_id :
    ∀ (rest : List (String × GroupEntry)) (k : String) (item : ItemRecord),
      k ∉ rest.map Prod.fst →
      rest.map (fun p => if p.1 = k then (p.1, ⟨p.2.summary, p.2.items ++ [item]⟩) else p)
        = rest := by
  intro rest k item
  induction rest with
  | nil => intro _; rfl
  | cons p tail ih =>
    intro h
    obtain ⟨k₀, e⟩ := p
    rw [List.map_cons, List.mem_cons] at h
    push_neg at h
    simp only [List.map_cons, if_neg (fun hh : k₀ = k => h.1 hh.symm), List.cons.injEq, true_and]
    exact ih h.2

/-- `setdefault` on an existing key (unique by the no-duplicate invariant,
its summary already filled) appends the item to that entry and leaves its
summary and all other entries unchanged. -/
theorem addToGroup_of_mem :
    ∀ (acc : List (String × GroupEntry)) (k : String)
      (resp : List (String × JValue)) (item : ItemRecord),
      (acc.map Prod.fst).Nodup →
      (∀ p ∈ acc, (p.2 : GroupEntry).summary.isSome) →
      k ∈ acc.map Prod.fst →
      addToGroup acc k resp item =
        acc.map (fun p => if p.1 = k then (p.1, ⟨p.2.summary, p.2.items ++ [item]⟩) else p) := by
  intro acc k resp item
  induction acc with
  | nil => intro _ _ h; cases h
  | cons p rest ih =>
    intro hnd hsome hmem
    obtain ⟨k₀, e⟩ := p
    rw [List.map_cons] at hnd
    rw [List.nodup_cons] at hnd
    by_cases hk : k₀ = k
    · subst hk
      obtain ⟨s, hs⟩ := Option.isSome_iff_exists.mp (hsome (k₀, e) (List.mem_cons_self _ _))
      simp only [addToGroup, if_pos rfl, List.map_cons, if_pos rfl]
      rw [map_upd_id rest k₀ item hnd.1, hs]
      simp
    · simp only [addToGroup, if_neg hk, List.map_cons, if_neg hk, List.cons.injEq, true_and]
      rw [List.map_cons, List.mem_cons] at hmem
      rcases hmem with hmem | hmem
      · exact absurd hmem.symm hk
      · exact ih hnd.2 (fun q hq => hsome q (List.mem_cons_of_mem _ hq)) hmem

/-- `collectGroups` only inspects membership in `seen`. -/
theorem collectGroups_congr :
    ∀ (kis : List (String × ItemRecord × List (String × JValue)))
      (s t : List String), (∀ x, x ∈ s ↔ x ∈ t) →
      collectGroups s kis = collectGroups t kis := by
  intro kis
  induction kis with
  | nil => intro _ _ _; rfl
  | cons ki rest ih =>
    intro s t hst
    obtain ⟨k, item, resp⟩ := ki
    by_cases hk : k ∈ s
    · simp only [collectGroups, if_pos hk, if_pos ((hst k).mp hk)]
      exact ih s t hst
    · simp only [collectGroups, if_neg hk, if_neg (fun hh => hk ((hst k).mpr hh)),
        List.cons.injEq, true_and]
      refine ih (k :: s) (k :: t) ?_
      intro x
      simp only [List.mem_cons, hst x]

/-- Extending with no further inputs changes nothing. -/
theorem map_addAll_nil :
    ∀ acc : List (String × GroupEntry),
      acc.map (fun p => (p.1, addAll [] p.1 p.2)) = acc := by
  intro acc
  induction acc with
  | nil => rfl
  | cons p rest ih =>
    obtain ⟨k, e⟩ := p
    obtain ⟨s0, items0⟩ := e
    simp [addAll, ih]

/-- Loop invariant: running the grouping loop from an accumulator with
distinct keys and filled summaries extends each existing group with its
later members (summaries untouched) and appends the new groups in
first-seen order of their keys. -/
theorem loopK_eq_collect :
    ∀ (kis : List (String × ItemRecord × List (String × JValue)))
      (acc : List (String × GroupEntry)),
      (acc.map Prod.fst).Nodup →
      (∀ p ∈ acc, (p.2 : GroupEntry).summary.isSome) →
      loopK acc kis =
        acc.map (fun p => (p.1, addAll kis p.1 p.2)) ++
          collectGroups (acc.map Prod.fst) kis := by
  intro kis
  induction kis with
  | nil =>
    intro acc hnd hsome
    simp only [loopK, collectGroups, List.append_nil, map_addAll_nil]
  | cons ki rest ih =>
    intro acc hnd hsome
    obtain ⟨k, item, resp⟩ := ki
    simp only [loopK]
    by_cases hmem : k ∈ acc.map Prod.fst
    · rw [addToGroup_of_mem acc k resp item hnd hsome hmem]
      have hkeys :
          ((acc.map (fun p => if p.1 = k then
              (p.1, (⟨p.2.summary, p.2.items ++ [item]⟩ : GroupEntry)) else p)).map
            Prod.fst) = acc.map Prod.fst := by
        rw [List.map_map]
        apply List.map_congr_left
        intro p _
        by_cases hp : p.1 = k
        · simp [hp]
        · simp [hp]
      have hnd' :
          (((acc.map (fun p => if p.1 = k then
              (p.1, (⟨p.2.summary, p.2.items ++ [item]⟩ : GroupEntry)) else p))).map
            Prod.fst).Nodup := by
        rw [hkeys]; exact hnd
      have hsome' : ∀ q ∈ acc.map (fun p => if p.1 = k then
          (p.1, (⟨p.2.summary, p.2.items ++ [item]⟩ : GroupEntry)) else p),
          (q.2 : GroupEntry).summary.isSome := by
        intro q hq
        rw [List.mem_map] at hq
        obtain ⟨p, hp, hq⟩ := hq
        by_cases hpk : p.1 = k
        · rw [← hq]; simp only [if_pos hpk]; exact hsome p hp
        · rw [← hq]; simp only [if_neg hpk]; exact hsome p hp
      rw [ih _ hnd' hsome', hkeys]
      have hcol : collectGroups (acc.map Prod.fst) ((k, item, resp) :: rest) =
          collectGroups (acc.map Prod.fst) rest := by
        simp only [collectGroups, if_pos hmem]
      rw [hcol]
      congr 1
      rw [List.map_map]
      apply List.map_congr_left
      intro p hp
      by_cases hpk : p.1 = k
      · simp only [Function.comp_def, if_pos hpk, addAll, hpk, List.filter_cons]
        simp [List.append_assoc]
      · have hkp : ¬ (k = p.1) := fun h => hpk h.symm
        simp only [Function.comp_def, if_neg hpk, addAll, List.filter_cons]
        simp [hkp]
    · rw [addToGroup_of_not_mem acc k resp item hmem]
      have hkeys : ((acc ++ [((k : String),
          (⟨some resp, [item]⟩ : GroupEntry))]).map Prod.fst) = acc.map Prod.fst ++ [k] := by
        simp
      have hnd' : (((acc ++ [((k : String),
          (⟨some resp, [item]⟩ : GroupEntry))])).map Prod.fst).Nodup := by
        rw [hkeys]
        refine hnd.append (List.nodup_singleton k) ?_
        intro a ha hb
        rw [List.mem_singleton] at hb
        subst hb
        exact hmem ha
      have hsome' : ∀ q ∈ acc ++ [((k : String), (⟨some resp, [item]⟩ : GroupEntry))],
          (q.2 : GroupEntry).summary.isSome := by
        intro q hq
        rw [List.mem_append] at hq
        rcases hq with hq | hq
        · exact hsome q hq
        · rw [List.mem_singleton] at hq; subst hq; rfl
      rw [ih _ hnd' hsome', hkeys]
      have hcol2 : collectGroups (acc.map Prod.fst ++ [k]) rest =
          collectGroups (k :: acc.map Prod.fst) rest := by
        refine collectGroups_congr rest _ _ ?_
        intro x
        simp [or_comm]
      rw [hcol2]
      have hcol3 : collectGroups (acc.map Prod.fst) ((k, item, resp) :: rest) =
          (k, (⟨some resp,
            item :: (rest.filter (fun x => x.1 = k)).map (fun x => x.2.1)⟩ : GroupEntry))
            :: collectGroups (k :: acc.map Prod.fst) rest := by
        simp only [collectGroups, if_neg hmem]
      rw [hcol3, List.map_append]
      have hnew : ([((k : String), (⟨some resp, [item]⟩ : GroupEntry))].map
          (fun p => (p.1, addAll rest p.1 p.2))) =
          [(k, (⟨some resp,
            item :: (rest.filter (fun x => x.1 = k)).map (fun x => x.2.1)⟩ : GroupEntry))] := by
        simp [addAll]
      rw [hnew]
      have hacc : acc.map (fun p => (p.1, addAll rest p.1 p.2)) =
          acc.map (fun p => (p.1, addAll ((k, item, resp) :: rest) p.1 p.2)) := by
        apply List.map_congr_left
        intro p hp
        have hkp : ¬ (k = p.1) := by
          intro h
          exact hmem (h ▸ List.mem_map.mpr ⟨p, hp, rfl⟩)
        simp [addAll, List.filter_cons, hkp]
      rw [hacc]
      simp [List.append_assoc]

/-- C2: the grouping of `analyze_with_gemini` processes the decoded
responses in input order and equals the declarative description: groups
are created in first-seen order of their derived labels; the first
response mapping encountered for a label is that group summary and is
never overwritten; each group lists every image assigned to the label in
input order.  On the concrete 3-image request in which two images share
top-level label `fox` and one matches no candidate field, the output has
exactly the two groups `fox` (summary = first fox response, members in
order) and `group_3` (the synthetic 1-based key of the third image). -/
theorem gemini_grouping_first_seen :
    (∀ imgs : List GeminiImage, gemini_grouping imgs = gemini_grouping_spec imgs) ∧
    gemini_grouping
        [⟨[("category_label", .str "fox"), ("analysis", .str "first fox")], some "a.jpg", 10⟩,
         ⟨[("category_label", .str "fox"), ("analysis", .str "second fox")], some "b.jpg", 11⟩,
         ⟨[("analysis", .str "no label")], some "c.jpg", 12⟩] =
      [⟨"fox", 2, some [("category_label", .str "fox"), ("analysis", .str "first fox")],
        [⟨0, some "a.jpg", 10⟩, ⟨1, some "b.jpg", 11⟩]⟩,
       ⟨"group_3", 1, some [("analysis", .str "no label")], [⟨2, some "c.jpg", 12⟩]⟩] := by
  constructor
  · intro imgs
    unfold gemini_grouping gemini_grouping_spec
    rw [groupLoop_eq_loopK,
      loopK_eq_collect (keyedImages 0 imgs) [] List.nodup_nil (by intro p hp; cases hp)]
    rfl
  · rfl
